import Mathlib

/-!
Shallow embedding of src/topic_2_process_api/fork_exec_wait_redirect.c.

The file contains two C programs:
  * a fork/exec/wait demo with output redirection (the "redirect demo",
    lines 21-163): the child closes stdout, opens "wc_output.txt", and
    execs wc; the parent waits;
  * a minimal shell (the "mini shell", lines 184-301): a read/fork/exec/wait
    loop with a "% " prompt.

Machine-level conventions of the embedding:
  * a C string (the fgets buffer) is a `List Char` (`CStr`); the NUL
    terminator is implicit (the list holds the characters before it);
  * process interleaving is captured by an event trace.  Since the parent's
    wait(NULL) blocks until the child has fully terminated, every event of
    the child of an iteration happens-before the return of that wait; the
    trace therefore lists child events before the `waitRet` event of the
    iteration, which is exactly the ordering the synchronization enforces;
  * fork outcomes are an oracle `forkOk : Nat → Bool` (iteration index ↦
    did fork succeed), and execvp outcomes an oracle `env : CStr → Bool`
    (program name ↦ can the program be loaded);
  * the file-descriptor table is an association list fd ↦ target, and open
    assigns the lowest free descriptor number (the POSIX rule the demo's
    redirection relies on);
  * the file system is an association list path ↦ contents (the list of
    write payloads landed in the file).
-/

/-- A C string: the characters of the buffer before the NUL terminator. -/
abbrev CStr := List Char

/-- MAXLINE from the mini shell (line 182): the fgets buffer size. -/
def MAXLINE : Nat := 100

/-- Index read by the newline strip (lines 210-211): `strlen(buf) - 1`,
as a mathematical integer (for the empty string the C size_t expression
wraps around; conceptually the access is at index -1). -/
def stripAccessIndex (buf : CStr) : Int := (buf.length : Int) - 1

/-- Newline strip, lines 210-211: if the last character is a newline it is
overwritten with NUL, i.e. dropped.  On a nonempty buffer this is exactly
what the source computes; on the empty buffer the source's access is out of
bounds (undefined behavior) and this total model returns the buffer
unchanged. -/
def stripNL (buf : CStr) : CStr :=
  if buf.getLast? = some '\n' then buf.dropLast else buf

/-- Events of the mini shell's run.  `stderrMsg child msg`: a line printed
to standard error (`child = true` when printed by the child process);
`execCall prog argv`: execvp was invoked with this program name and
argument vector (the terminating NULL is the `none` entry); `childExit c`:
the child called exit(c); `waitRet`: the parent's wait(NULL) returned, i.e.
the child of the iteration has fully terminated. -/
inductive ShellEv where
  | prompt
  | stderrMsg (child : Bool) (msg : String)
  | execCall (prog : CStr) (argv : List (Option CStr))
  | childExit (code : Nat)
  | waitRet
  deriving DecidableEq

/-- Message of line 228. -/
def forkErrorMsg : String := "Fork error\n"

/-- Message of line 271. -/
def execErrorMsg : String := "exec error\n"

/-- Child-side code of the mini shell, lines 249-272: build
`argv = [buf, NULL]`, call execvp(buf, argv); if (and only if) the exec
fails, print "exec error" to stderr and exit(1).  `env buf` is whether the
program named `buf` can be loaded. -/
def childRun (env : CStr → Bool) (buf : CStr) : List ShellEv :=
  ShellEv.execCall buf [some buf, none] ::
    (if env buf then []
     else [ShellEv.stderrMsg true execErrorMsg, ShellEv.childExit 1])

/-- The mini shell's main loop, lines 201-301.  `i` is the iteration index
(fed to the fork oracle), `lines` the remaining lines fgets will deliver
(`[]` = end of input).  Returns the event trace and the shell's exit code.
Per iteration: strip the newline, fork; on fork failure print "Fork error"
to stderr and exit(1) (the whole shell stops); on success the child runs
`childRun`, the parent's wait(NULL) returns after the child terminates,
the prompt is reprinted and the loop continues.  On end of input, exit(0). -/
def shellLoop (env : CStr → Bool) (forkOk : Nat → Bool) :
    Nat → List CStr → List ShellEv × Nat
  | _, [] => ([], 0)
  | i, line :: rest =>
    let buf := stripNL line
    if forkOk i then
      let tail := shellLoop env forkOk (i + 1) rest
      (childRun env buf ++ ShellEv.waitRet :: ShellEv.prompt :: tail.1,
       tail.2)
    else
      ([ShellEv.stderrMsg false forkErrorMsg], 1)

/-- The mini shell's main, lines 184-301: print the initial "% " prompt
(line 193), then run the loop. -/
def shellMain (env : CStr → Bool) (forkOk : Nat → Bool) (lines : List CStr) :
    List ShellEv × Nat :=
  (ShellEv.prompt :: (shellLoop env forkOk 0 lines).1,
   (shellLoop env forkOk 0 lines).2)

/-- Whitespace characters, for the spec-side tokenizer below. -/
def isWSChar (c : Char) : Bool := c == ' ' || c == '\t' || c == '\n'

/-- Modelled from the spec: "the first whitespace-free token of the line"
(spec section 6).  Used only to compare the spec's description of the
program-name extraction against what the source actually does; the source
itself performs no tokenization. -/
def firstToken (line : CStr) : CStr :=
  (line.dropWhile isWSChar).takeWhile (fun c => !isWSChar c)

/-- What a file descriptor is bound to: the inherited terminal device, or a
file of the file system. -/
inductive FdTarget where
  | terminal
  | file (path : String)
  deriving DecidableEq

/-- The per-process file-descriptor table: an association list
fd number ↦ target. -/
abbrev FdTable := List (Nat × FdTarget)

/-- Whether descriptor number `n` is allocated in the table. -/
def fdUsed (t : FdTable) (n : Nat) : Bool := t.any (fun p => p.1 == n)

/-- close(n): the descriptor number becomes free. -/
def closeFd (t : FdTable) (n : Nat) : FdTable := t.filter (fun p => p.1 != n)

/-- Search upward from `n` for the first free descriptor number; the fuel
bounds the search (a table with k entries uses at most k numbers, so some
number in [n, n+k] is free). -/
def lowestFreeAux (t : FdTable) : Nat → Nat → Nat
  | 0, n => n
  | fuel + 1, n => if fdUsed t n then lowestFreeAux t fuel (n + 1) else n

/-- The lowest free descriptor number of the table — the POSIX allocation
rule the redirect demo's comment spells out (lines 76-77). -/
def lowestFree (t : FdTable) : Nat := lowestFreeAux t (t.length + 1) 0

/-- open(): bind the lowest free descriptor number to the target; returns
the assigned descriptor and the new table. -/
def openFd (t : FdTable) (tgt : FdTarget) : Nat × FdTable :=
  (lowestFree t, (lowestFree t, tgt) :: t)

/-- Look up what a descriptor number is bound to. -/
def lookupFd (t : FdTable) (n : Nat) : Option FdTarget :=
  (t.find? (fun p => p.1 == n)).map Prod.snd

/-- The table every child starts with: stdin, stdout, stderr bound to the
inherited terminal. -/
def stdFds : FdTable :=
  [(0, FdTarget.terminal), (1, FdTarget.terminal), (2, FdTarget.terminal)]

/-- The flag symbols the redirect demo's open call passes (line 90),
as written in the source.  `S_IRWXU` is the owner read/write/execute
permission-bit constant; the source passes it inside the flags argument
(its own comment calls this "a mode argument, slightly misplaced"), and it
is the creation mode the demo intends and its comment documents. -/
inductive OpenFlag where
  | O_RDWR
  | O_CREAT
  | O_TRUNC
  | S_IRWXU
  deriving DecidableEq

/-- An open() call: destination path and flag symbols. -/
structure OpenCall where
  path : String
  flags : List OpenFlag
  deriving DecidableEq

/-- The redirect demo's open call, line 90, verbatim:
open("wc_output.txt", O_RDWR | O_CREAT | O_TRUNC | S_IRWXU). -/
def redirectOpenCall : OpenCall :=
  ⟨"wc_output.txt", [OpenFlag.O_RDWR, OpenFlag.O_CREAT, OpenFlag.O_TRUNC,
                     OpenFlag.S_IRWXU]⟩

/-- A path is relative when it does not start with the root separator. -/
def isRelative (p : String) : Bool :=
  match p.toList with
  | '/' :: _ => false
  | _ => true

/-- The file system: association list path ↦ file contents, a file's
contents being the list of write payloads that landed in it. -/
abbrev FileSys := List (String × List String)

/-- Contents of the file at `p`, `none` when absent. -/
def fsLookup (fs : FileSys) (p : String) : Option (List String) :=
  (fs.find? (fun e => e.1 == p)).map Prod.snd

/-- Replace (or create) the file at `p` with contents `v`. -/
def fsSet (fs : FileSys) (p : String) (v : List String) : FileSys :=
  (p, v) :: fs.filter (fun e => e.1 != p)

/-- Append write payloads to the file at `p` (created empty if absent). -/
def fsAppend (fs : FileSys) (p : String) (out : List String) : FileSys :=
  fsSet fs p ((fsLookup fs p).getD [] ++ out)

/-- Effect of an open() call on the file system: O_CREAT creates the file
(empty, as a regular file) when absent; O_TRUNC truncates it to zero
length when present. -/
def applyOpen (fs : FileSys) (c : OpenCall) : FileSys :=
  match fsLookup fs c.path with
  | none => if c.flags.contains OpenFlag.O_CREAT then (c.path, []) :: fs else fs
  | some _ => if c.flags.contains OpenFlag.O_TRUNC then fsSet fs c.path [] else fs

/-- Writes issued on descriptor `n` land in whatever file the table binds
`n` to; writes on the terminal or on an unbound descriptor do not touch
the file system. -/
def writeFd (fs : FileSys) (t : FdTable) (n : Nat) (out : List String) :
    FileSys :=
  match lookupFd t n with
  | some (FdTarget.file p) => fsAppend fs p out
  | _ => fs

/-- One run of the redirect demo's child-side redirection path
(lines 71-119) followed by the replaced program writing `out` on its
standard output (descriptor 1): close stdout, open "wc_output.txt" (the
open takes the freed slot), then the program's stdout writes land through
descriptor 1. -/
def runRedirectOnce (fs : FileSys) (out : List String) : FileSys :=
  let t2 := (openFd (closeFd stdFds 1) (FdTarget.file "wc_output.txt")).2
  writeFd (applyOpen fs redirectOpenCall) t2 1 out

/-- Events of the redirect demo's child (lines 54-127). -/
inductive DemoEv where
  | closeEv (fd : Nat)
  | openEv (c : OpenCall) (succeeded : Bool)
  | execEv (prog : String) (argv : List (Option String))
  | errEv (msg : String)
  | exitEv (code : Nat)
  deriving DecidableEq

/-- Argument vector of the redirect demo, lines 101-104. -/
def wcArgvList : List (Option String) :=
  [some "wc", some "fork_wait_exec_redirect.c", none]

/-- Child-side code of the redirect demo, lines 54-127, as straight-line
event emission: close(STDOUT_FILENO); open("wc_output.txt", ...) — whose
return value the source DISCARDS (no variable receives it and no branch
examines it); execvp("wc", argv); and only if the exec returns, the
"exec failed" report and exit(1).  `openOk` is the open's actual outcome
(recorded in the event, never branched on — faithfully to the source);
`execOk` is the execvp outcome. -/
def demoChildRun (openOk : Bool) (execOk : Bool) : List DemoEv :=
  DemoEv.closeEv 1 ::
  DemoEv.openEv redirectOpenCall openOk ::
  DemoEv.execEv "wc" wcArgvList ::
  (if execOk then [] else [DemoEv.errEv "exec failed\n", DemoEv.exitEv 1])

/-- Diagnostic events: an error report or an exit. -/
def isDiagEv : DemoEv → Bool
  | DemoEv.errEv _ => true
  | DemoEv.exitEv _ => true
  | _ => false

/-! Oracles and fixtures used by concrete instantiations. -/

/-- Oracle: every program loads. -/
def envTrue : CStr → Bool := fun _ => true

/-- Oracle: no program loads. -/
def envFalse : CStr → Bool := fun _ => false

/-- Oracle: only the program named "ls" loads. -/
def envLs : CStr → Bool := fun b => b == "ls".toList

/-- Oracle: every fork succeeds. -/
def allOk : Nat → Bool := fun _ => true

/-- Oracle: every fork fails. -/
def noFork : Nat → Bool := fun _ => false

/-! Helper lemmas. -/

/-- Closing a descriptor number frees it. -/
lemma fdUsed_closeFd_self (t : FdTable) (n : Nat) :
    fdUsed (closeFd t n) n = false := by
  induction t with
  | nil => rfl
  | cons p rest ih =>
    by_cases h : p.1 = n <;>
      simp [closeFd, fdUsed, List.filter_cons, List.any_cons, h] at *

/-- Closing descriptor 1 does not change whether descriptor 0 is used. -/
lemma fdUsed_closeFd_zero (t : FdTable) : fdUsed (closeFd t 1) 0 = fdUsed t 0 := by
  induction t with
  | nil => rfl
  | cons p rest ih =>
    by_cases h : p.1 = 1 <;>
      simp [closeFd, fdUsed, List.filter_cons, List.any_cons, h] at * <;> simp_all

/-- When descriptor 0 is used and descriptor 1 is free, the lowest free
descriptor number is exactly 1. -/
lemma lowestFree_of_zero_used (t : FdTable) (h0 : fdUsed t 0 = true)
    (h1 : fdUsed t 1 = false) : lowestFree t = 1 := by
  cases t with
  | nil => simp [fdUsed] at h0
  | cons p rest => simp [lowestFree, lowestFreeAux, h0, h1]

/-- Looking up a path right after setting it yields the set contents. -/
lemma fsLookup_fsSet (fs : FileSys) (p : String) (v : List String) :
    fsLookup (fsSet fs p v) p = some v := by
  simp [fsLookup, fsSet, List.find?_cons_of_pos]

/-- Looking up a path whose entry heads the list yields that entry. -/
lemma fsLookup_cons_self (fs : FileSys) (p : String) (v : List String) :
    fsLookup ((p, v) :: fs) p = some v := by
  simp [fsLookup, List.find?_cons_of_pos]

/-- After the redirect demo's open call, the destination file exists and is
empty, whether it was absent (O_CREAT creates it) or present (O_TRUNC
truncates it). -/
lemma applyOpen_wc_lookup (fs : FileSys) :
    fsLookup (applyOpen fs redirectOpenCall) "wc_output.txt" = some [] := by
  cases hfs : fsLookup fs "wc_output.txt" with
  | none => simp [applyOpen, hfs, redirectOpenCall, fsLookup_cons_self]
  | some v => simp [applyOpen, hfs, redirectOpenCall, fsLookup_fsSet]

/-- One redirect-demo run leaves the destination file holding exactly that
run's output, whatever the file held before. -/
lemma runRedirectOnce_lookup (fs : FileSys) (out : List String) :
    fsLookup (runRedirectOnce fs out) "wc_output.txt" = some out := by
  have ht : lookupFd (openFd (closeFd stdFds 1) (FdTarget.file "wc_output.txt")).2 1 =
      some (FdTarget.file "wc_output.txt") := by decide
  rw [runRedirectOnce]
  simp only [writeFd, ht]
  rw [fsAppend, applyOpen_wc_lookup]
  simp [fsLookup_fsSet]

/-- The child of a mini-shell iteration never prints the prompt. -/
lemma prompt_not_in_childRun (env : CStr → Bool) (buf : CStr) :
    ShellEv.prompt ∉ childRun env buf := by
  by_cases h : env buf <;> simp [childRun, h]

/-- Decomposing an occurrence of the prompt event in one iteration's trace
segment: the occurrence is either the segment's own prompt — in which case
everything before it ends with the wait return — or lies in the tail. -/
lemma split_prompt_core :
    ∀ (pre tl l1 l2 : List ShellEv), ShellEv.prompt ∉ pre →
      pre ++ ShellEv.waitRet :: ShellEv.prompt :: tl = l1 ++ ShellEv.prompt :: l2 →
      l1 = pre ++ [ShellEv.waitRet] ∨
      ∃ l1h, l1 = pre ++ ShellEv.waitRet :: ShellEv.prompt :: l1h ∧
        tl = l1h ++ ShellEv.prompt :: l2 := by
  intro pre
  induction pre with
  | nil =>
    intro tl l1 l2 _ heq
    simp only [List.nil_append] at heq
    cases l1 with
    | nil => simp at heq
    | cons a l1t =>
      cases l1t with
      | nil =>
        rw [List.cons_append, List.nil_append] at heq
        injection heq with h1 h2
        injection h2 with h2a h2b
        left
        simp [h1.symm]
      | cons b l1t2 =>
        rw [List.cons_append, List.cons_append] at heq
        injection heq with h1 h2
        injection h2 with h2a h2b
        right
        exact ⟨l1t2, by simp [h1.symm, h2a.symm], h2b⟩
  | cons p pret ih =>
    intro tl l1 l2 hnotin heq
    have hp : p ≠ ShellEv.prompt := fun h => hnotin (h ▸ List.mem_cons_self _ _)
    have hnotin2 : ShellEv.prompt ∉ pret := fun h => hnotin (List.mem_cons_of_mem _ h)
    rw [List.cons_append] at heq
    cases l1 with
    | nil =>
      simp only [List.nil_append] at heq
      injection heq with h1 _
      exact absurd h1 hp
    | cons q l1t =>
      rw [List.cons_append] at heq
      injection heq with h1 h2
      rcases ih tl l1t l2 hnotin2 h2 with hL | ⟨l1h, hA, hB⟩
      · left; simp [h1, hL]
      · right; exact ⟨l1h, by simp [h1, hA], hB⟩

/-- In the loop's trace (which has no initial prompt), everything before
any prompt occurrence ends with a wait return: the loop reprints the
prompt only right after wait(NULL) has returned. -/
lemma shellLoop_prompt_after_wait (env : CStr → Bool) (forkOk : Nat → Bool) :
    ∀ (lines : List CStr) (i : Nat) (l1 l2 : List ShellEv),
      (shellLoop env forkOk i lines).1 = l1 ++ ShellEv.prompt :: l2 →
      ∃ l0, l1 = l0 ++ [ShellEv.waitRet] := by
  intro lines
  induction lines with
  | nil =>
    intro i l1 l2 h
    simp [shellLoop] at h
  | cons line rest ih =>
    intro i l1 l2 h
    by_cases hf : forkOk i = true
    · simp only [shellLoop, hf, if_true] at h
      rcases split_prompt_core (childRun env (stripNL line)) _ l1 l2
          (prompt_not_in_childRun env (stripNL line)) h with hL | ⟨l1h, hA, hB⟩
      · exact ⟨childRun env (stripNL line), hL⟩
      · rcases ih (i + 1) l1h l2 hB with ⟨l0, hc⟩
        exact ⟨childRun env (stripNL line) ++ ShellEv.waitRet :: ShellEv.prompt :: l0,
          by simp [hA, hc]⟩
    · simp only [shellLoop, hf, if_false, Bool.false_eq_true] at h
      cases l1 <;> simp_all

/-- When every fork succeeds, the loop's exit code is 0 whatever the lines
and exec outcomes are. -/
lemma shellLoop_exit_zero (env : CStr → Bool) (forkOk : Nat → Bool)
    (h : ∀ i, forkOk i = true) :
    ∀ (lines : List CStr) (i : Nat), (shellLoop env forkOk i lines).2 = 0 := by
  intro lines
  induction lines with
  | nil => intro i; rfl
  | cons line rest ih => intro i; simp [shellLoop, h i, ih (i + 1)]

/-! Claim theorems. -/

/-- C1: for every loop iteration of the Command Loop, the parent's next
prompt is printed only after the child spawned in that iteration has fully
terminated — never before.  In the trace, `waitRet` marks the return of the
iteration's blocking wait(NULL), which by construction follows every event
of that iteration's child; the theorem shows that every occurrence of the
prompt in the shell's trace is either the initial prompt or is immediately
preceded by a wait return, so no prompt is ever emitted with the
iteration's child still outstanding. -/
theorem c1_prompt_only_after_wait (env : CStr → Bool) (forkOk : Nat → Bool)
    (lines : List CStr) (l1 l2 : List ShellEv)
    (h : (shellMain env forkOk lines).1 = l1 ++ ShellEv.prompt :: l2) :
    l1 = [] ∨ ∃ l0, l1 = l0 ++ [ShellEv.waitRet] := by
  simp only [shellMain] at h
  cases l1 with
  | nil => exact Or.inl rfl
  | cons a l1t =>
    rw [List.cons_append] at h
    injection h with h1 h2
    rcases shellLoop_prompt_after_wait env forkOk lines 0 l1t l2 h2 with ⟨l0, hc⟩
    exact Or.inr ⟨a :: l0, by simp [hc]⟩

/-- Witness for C1: concrete run of the shell on the single line "ls". -/
theorem c1_prompt_only_after_wait_witness :
    ([ShellEv.prompt, ShellEv.execCall "ls".toList [some "ls".toList, none],
        ShellEv.waitRet] = ([] : List ShellEv)) ∨
    ∃ l0, [ShellEv.prompt, ShellEv.execCall "ls".toList [some "ls".toList, none],
        ShellEv.waitRet] = l0 ++ [ShellEv.waitRet] :=
  c1_prompt_only_after_wait envLs allOk ["ls\n".toList]
    [ShellEv.prompt, ShellEv.execCall "ls".toList [some "ls".toList, none],
      ShellEv.waitRet] [] (by decide)

/-- C2 (amended): for every input line, the ENTIRE newline-stripped line —
not merely its first whitespace-free token — is used as the external
program's display name and path/PATH-search key, and the child execs it
with argument vector [strippedLine, NULL]; no tokenization or argument
parsing occurs. -/
theorem c2_whole_line_is_program (env : CStr → Bool) (forkOk : Nat → Bool)
    (i : Nat) (line : CStr) (rest : List CStr) (hf : forkOk i = true) :
    (shellLoop env forkOk i (line :: rest)).1.head? =
      some (ShellEv.execCall (stripNL line) [some (stripNL line), none]) := by
  simp [shellLoop, childRun, hf]

/-- Witness for C2 (amended): concrete run on the line "ls". -/
theorem c2_whole_line_is_program_witness :
    (shellLoop envTrue allOk 0 ["ls\n".toList]).1.head? =
      some (ShellEv.execCall (stripNL "ls\n".toList)
        [some (stripNL "ls\n".toList), none]) :=
  c2_whole_line_is_program envTrue allOk 0 "ls\n".toList [] rfl

/-- Counterexample for C2 as stated: on the input line "ls -l", the exec
call recorded in the trace carries the whole stripped line "ls -l" as
program name and argv entry, which differs from the line's first
whitespace-free token "ls" — so the first token is NOT what is used. -/
theorem c2_first_token_cex :
    (shellLoop envTrue allOk 0 ["ls -l\n".toList]).1.head? =
      some (ShellEv.execCall "ls -l".toList [some "ls -l".toList, none]) ∧
    (shellLoop envTrue allOk 0 ["ls -l\n".toList]).1.head? ≠
      some (ShellEv.execCall (firstToken "ls -l\n".toList)
        [some (firstToken "ls -l\n".toList), none]) ∧
    "ls -l".toList ≠ firstToken "ls -l\n".toList := by
  refine ⟨by decide, by decide, by decide⟩

/-- C3: if fork fails in the Command Loop, the shell reports "Fork error"
on standard error and the whole shell terminates immediately with exit
code 1; the trace shows nothing after the report (no retry) and contains
no child event (no child exists). -/
theorem c3_fork_failure_fatal (env : CStr → Bool) (forkOk : Nat → Bool) :
    (∀ (i : Nat) (line : CStr) (rest : List CStr), forkOk i = false →
      shellLoop env forkOk i (line :: rest) =
        ([ShellEv.stderrMsg false forkErrorMsg], 1)) ∧
    (∀ (line : CStr) (rest : List CStr), forkOk 0 = false →
      shellMain env forkOk (line :: rest) =
        ([ShellEv.prompt, ShellEv.stderrMsg false forkErrorMsg], 1)) := by
  constructor
  · intro i line rest h
    simp [shellLoop, h]
  · intro line rest h
    simp [shellMain, shellLoop, h]

/-- Witness for C3: a concrete run in which the first fork fails. -/
theorem c3_fork_failure_fatal_witness :
    shellMain envTrue noFork ["ls\n".toList] =
      ([ShellEv.prompt, ShellEv.stderrMsg false forkErrorMsg], 1) :=
  (c3_fork_failure_fatal envTrue noFork).2 "ls\n".toList [] rfl

/-- C4: for every command whose program cannot be loaded, the child prints
"exec error" to standard error and exits with code 1 (non-zero), the
parent's wait still returns, the loop reprints the prompt and continues
with the remaining lines, and the shell's final exit code is whatever the
rest of the run produces — a child-side failure never terminates the
loop.  (The empty command is dispatched like any other; the witness below
runs it.) -/
theorem c4_exec_failure_child_only (env : CStr → Bool) (forkOk : Nat → Bool)
    (i : Nat) (line : CStr) (rest : List CStr)
    (hf : forkOk i = true) (he : env (stripNL line) = false) :
    (shellLoop env forkOk i (line :: rest)).1 =
      ShellEv.execCall (stripNL line) [some (stripNL line), none] ::
      ShellEv.stderrMsg true execErrorMsg ::
      ShellEv.childExit 1 ::
      ShellEv.waitRet ::
      ShellEv.prompt ::
      (shellLoop env forkOk (i + 1) rest).1 ∧
    (shellLoop env forkOk i (line :: rest)).2 =
      (shellLoop env forkOk (i + 1) rest).2 := by
  constructor <;> simp [shellLoop, childRun, hf, he]

/-- Witness for C4: the empty input line (stripped to the empty command)
is dispatched, fails in the child, and the loop survives. -/
theorem c4_exec_failure_child_only_witness :
    (shellLoop envFalse allOk 0 ["\n".toList]).1 =
      ShellEv.execCall (stripNL "\n".toList) [some (stripNL "\n".toList), none] ::
      ShellEv.stderrMsg true execErrorMsg ::
      ShellEv.childExit 1 ::
      ShellEv.waitRet ::
      ShellEv.prompt ::
      (shellLoop envFalse allOk 1 []).1 ∧
    (shellLoop envFalse allOk 0 ["\n".toList]).2 =
      (shellLoop envFalse allOk 1 []).2 :=
  c4_exec_failure_child_only envFalse allOk 0 "\n".toList [] rfl rfl

/-- C5: when the input stream ends, the loop exits and the shell
terminates with exit code 0 — for any input (given that no fork fails,
the only fatal condition), and in particular with zero commands issued,
where the run is exactly the initial prompt and exit code 0. -/
theorem c5_eof_exit_zero (env : CStr → Bool) (forkOk : Nat → Bool)
    (lines : List CStr) (h : ∀ i, forkOk i = true) :
    (shellMain env forkOk lines).2 = 0 ∧
    shellMain env forkOk [] = ([ShellEv.prompt], 0) :=
  ⟨shellLoop_exit_zero env forkOk h lines 0, rfl⟩

/-- Witness for C5: a concrete run with one command, all forks succeeding. -/
theorem c5_eof_exit_zero_witness :
    (shellMain envTrue allOk ["ls\n".toList]).2 = 0 ∧
    shellMain envTrue allOk [] = ([ShellEv.prompt], 0) :=
  c5_eof_exit_zero envTrue allOk ["ls\n".toList] (fun _ => rfl)

/-- C6: in the redirection path, after closing the standard-output
descriptor (1), the immediately following open is assigned exactly the
freed descriptor 1 (the lowest free number, descriptor 0 being still in
use), descriptor 1 is then bound to the destination file, and the replaced
program's standard-output writes land in that file. -/
theorem c6_open_reclaims_stdout (t : FdTable) (fs : FileSys)
    (out : List String) (h0 : fdUsed t 0 = true) :
    (openFd (closeFd t 1) (FdTarget.file "wc_output.txt")).1 = 1 ∧
    lookupFd (openFd (closeFd t 1) (FdTarget.file "wc_output.txt")).2 1 =
      some (FdTarget.file "wc_output.txt") ∧
    writeFd fs (openFd (closeFd t 1) (FdTarget.file "wc_output.txt")).2 1 out =
      fsAppend fs "wc_output.txt" out := by
  have h1 : fdUsed (closeFd t 1) 1 = false := fdUsed_closeFd_self t 1
  have h0c : fdUsed (closeFd t 1) 0 = true := (fdUsed_closeFd_zero t).trans h0
  have hl : lowestFree (closeFd t 1) = 1 := lowestFree_of_zero_used _ h0c h1
  refine ⟨by simp [openFd, hl], ?_, ?_⟩
  · simp [openFd, hl, lookupFd, List.find?_cons_of_pos]
  · simp [openFd, hl, writeFd, lookupFd, List.find?_cons_of_pos]

/-- Witness for C6: the child's actual inherited table (stdin, stdout,
stderr bound to the terminal). -/
theorem c6_open_reclaims_stdout_witness :
    (openFd (closeFd stdFds 1) (FdTarget.file "wc_output.txt")).1 = 1 ∧
    lookupFd (openFd (closeFd stdFds 1) (FdTarget.file "wc_output.txt")).2 1 =
      some (FdTarget.file "wc_output.txt") ∧
    writeFd [] (openFd (closeFd stdFds 1) (FdTarget.file "wc_output.txt")).2 1
        ["out"] =
      fsAppend [] "wc_output.txt" ["out"] :=
  c6_open_reclaims_stdout stdFds [] ["out"] (by decide)

/-- C7: the redirection destination is a regular file at the fixed,
hard-coded relative path "wc_output.txt", opened read-write (O_RDWR),
created if absent (O_CREAT), truncated if present (O_TRUNC), with the
owner read/write/execute permission bits (S_IRWXU) passed for creation;
for every prior file-system state the open leaves the destination existing
and empty (created or truncated). -/
theorem c7_redirect_destination (fs : FileSys) :
    redirectOpenCall.path = "wc_output.txt" ∧
    isRelative redirectOpenCall.path = true ∧
    OpenFlag.O_RDWR ∈ redirectOpenCall.flags ∧
    OpenFlag.O_CREAT ∈ redirectOpenCall.flags ∧
    OpenFlag.O_TRUNC ∈ redirectOpenCall.flags ∧
    OpenFlag.S_IRWXU ∈ redirectOpenCall.flags ∧
    fsLookup (applyOpen fs redirectOpenCall) "wc_output.txt" = some [] :=
  ⟨rfl, rfl, by decide, by decide, by decide, by decide, applyOpen_wc_lookup fs⟩

/-- C8: the baseline redirection path never checks whether the open of the
destination succeeded: whatever the open's outcome, the child's subsequent
behavior is identical — the third step is always the execvp of wc with its
argument vector, and no diagnostic (error report or exit) occurs between
the open and the exec. -/
theorem c8_open_result_unchecked :
    ∀ openOk execOk : Bool,
      (demoChildRun openOk execOk).drop 2 = (demoChildRun true execOk).drop 2 ∧
      (demoChildRun openOk execOk).get? 2 =
        some (DemoEv.execEv "wc" wcArgvList) ∧
      ∀ e ∈ (demoChildRun openOk execOk).take 2, isDiagEv e = false := by
  decide

/-- C9: running the redirect-enabled path twice against the same
destination truncates it each time: after the second run the file contains
exactly the second run's output, and (whenever the first run wrote
anything) not the concatenation of both runs. -/
theorem c9_truncate_idempotent (fs : FileSys) (out1 out2 : List String) :
    fsLookup (runRedirectOnce (runRedirectOnce fs out1) out2) "wc_output.txt" =
      some out2 ∧
    (out1 = [] ∨
      fsLookup (runRedirectOnce (runRedirectOnce fs out1) out2) "wc_output.txt" ≠
        some (out1 ++ out2)) := by
  refine ⟨runRedirectOnce_lookup _ _, ?_⟩
  by_cases h : out1 = []
  · exact Or.inl h
  · refine Or.inr ?_
    rw [runRedirectOnce_lookup _ _]
    intro hc
    have h2 : out2 = out1 ++ out2 := Option.some_injective _ hc
    have h3 := congrArg List.length h2
    simp [List.length_append] at h3
    exact h h3

/-- C10: the trailing-newline strip reads index strlen(buf) - 1 without a
non-emptiness check.  For every non-empty read string fitting the fgets
buffer the access is in bounds and the strip removes at most one trailing
newline; but for the empty read string (produced by a line whose first
byte is a NUL byte) the access index is -1, outside the buffer. -/
theorem c10_strip_bounds :
    (∀ buf : CStr, buf ≠ [] → buf.length < MAXLINE →
      0 ≤ stripAccessIndex buf ∧ stripAccessIndex buf < (MAXLINE : Int) ∧
      (stripNL buf = buf ∨ buf = stripNL buf ++ ['\n'])) ∧
    stripAccessIndex [] = -1 ∧ ¬ (0 ≤ stripAccessIndex []) := by
  refine ⟨?_, rfl, by decide⟩
  intro buf hne hlen
  have hpos : 0 < buf.length := List.length_pos.mpr hne
  refine ⟨by rw [stripAccessIndex]; omega, by rw [stripAccessIndex]; omega, ?_⟩
  by_cases hlast : buf.getLast? = some '\n'
  · right
    have h2 := List.getLast?_eq_getLast buf hne
    rw [hlast] at h2
    have h3 : buf.getLast hne = '\n' := (Option.some_injective _ h2).symm
    rw [stripNL, if_pos hlast, ← h3]
    exact (List.dropLast_append_getLast hne).symm
  · left
    rw [stripNL, if_neg hlast]

/-- Witness for C10: the in-bounds half at the concrete buffer "a\n", plus
the out-of-bounds index of the empty buffer. -/
theorem c10_strip_bounds_witness :
    (0 ≤ stripAccessIndex ['a', '\n'] ∧
      stripAccessIndex ['a', '\n'] < (MAXLINE : Int) ∧
      (stripNL ['a', '\n'] = ['a', '\n'] ∨
        ['a', '\n'] = stripNL ['a', '\n'] ++ ['\n'])) ∧
    stripAccessIndex [] = -1 :=
  ⟨c10_strip_bounds.1 ['a', '\n'] (by decide) (by decide),
   c10_strip_bounds.2.1⟩
